import Mathlib

/-!
Verification of the PCD-Lite content-discovery prototype.

This file gives a shallow embedding, in Lean 4, of the query-parsing and
recommendation core of the repository (`app/mapping.py`, `app/recs.py`,
`app/schema.py`) and proves properties of it.

Modelling conventions:
* Python strings are `List Char` (queries are processed as character lists);
  `str.lower`/`str.strip`/`str.title` are embedded as character maps
  (exact for the ASCII data used by the program).
* Python `float` arithmetic on parsed numbers is embedded exactly over
  naturals / rationals (the parsed literals are short decimal numerals, for
  which Python float conversion is numerically exact in all cases the
  claims exercise).
* The regular expressions of `mapping.py` are embedded by a small
  deterministic matcher specialised to the constructs those patterns use
  (literals, `\s*`, greedy optional groups, `\d+(\.\d+)?`, `\d{4}`); for
  these patterns greedy matching without backtracking agrees with Python
  `re` semantics, and `re.findall` is embedded by scanning start positions
  left to right and resuming after each match.
* The TF-IDF cosine similarity produced by scikit-learn is abstracted as a
  parameter `sim : Nat → ℚ` giving the similarity score of each catalog
  row; all theorems about the similarity strategy hold for every such
  function.
* Python `hash` (process-seeded string hash) is abstracted as a parameter
  `pyHash : String → Int` fixed for the lifetime of a process.
-/

namespace PCD

/-- Python `\s` whitespace class (ASCII). -/
def pyIsSpace (c : Char) : Bool :=
  c == ' ' || c == '\t' || c == '\n' || c == '\r' || c == '\x0b' || c == '\x0c'

/-- ASCII decimal digit test (Python `\d`). -/
def isDigit (c : Char) : Bool := '0' ≤ c && c ≤ '9'

/-- Python `\w` word character (ASCII model). -/
def isWordChar (c : Char) : Bool := c.isAlphanum || c == '_'

/-- Python `str.lower` on a character list (ASCII-exact). -/
def pyLowerL (cs : List Char) : List Char := cs.map Char.toLower

/-- Python `str.lower` on a string. -/
def pyLower (s : String) : String := String.mk (pyLowerL s.toList)

/-- Python `str.strip` (remove leading and trailing whitespace). -/
def pyStrip (cs : List Char) : List Char :=
  ((cs.dropWhile pyIsSpace).reverse.dropWhile pyIsSpace).reverse

/-- Python `str.title` helper: the Bool records whether the previous
character was alphabetic. -/
def pyTitleAux : List Char → Bool → List Char
  | [], _ => []
  | c :: rest, prevAlpha =>
    (if c.isAlpha then (if prevAlpha then c.toLower else c.toUpper) else c) ::
      pyTitleAux rest c.isAlpha

/-- Python `str.title` (ASCII model). -/
def pyTitle (s : String) : String := String.mk (pyTitleAux s.toList false)

/-- Does the first list occur as a leading segment of the second? -/
def prefixB : List Char → List Char → Bool
  | [], _ => true
  | _ :: _, [] => false
  | p :: ps, c :: cs => p == c && prefixB ps cs

/-- Python `needle in haystack` for strings: contiguous-substring test. -/
def infixB (needle : List Char) : List Char → Bool
  | [] => needle.isEmpty
  | c :: rest => prefixB needle (c :: rest) || infixB needle rest

/-- Substring test with string arguments (needle first). -/
def strIn (needle : String) (hay : String) : Bool := infixB needle.toList hay.toList

/-- Model of `x.lower() in [y.lower() for y in ys]`: case-insensitive membership of a
string in a list of strings (the Python `in` operator applied to a list). -/
def memLower (x : String) (ys : List String) : Bool :=
  (ys.map pyLower).contains (pyLower x)

/-! ## A small regex engine

The patterns of `mapping.py` are concatenations of the following tokens.
Each pattern contains exactly one capture group (`capNum` or `capYear`). -/

inductive Tok where
  /-- a literal character sequence -/
  | lit : List Char → Tok
  /-- Model of `\s*` (greedy) -/
  | ws : Tok
  /-- Model of `(?:LIT)?` greedy optional literal (also used for a trailing `s?`) -/
  | optLit : List Char → Tok
  /-- Model of `(?:LIT\s*)?` greedy optional literal followed by `\s*` -/
  | optLitWs : List Char → Tok
  /-- Model of `(\d+(?:\.\d+)?)` capture of a decimal numeral -/
  | capNum : Tok
  /-- Model of `(\d{4})` capture of exactly four digits -/
  | capYear : Tok
deriving DecidableEq

/-- Consume a literal from the head of the input. -/
def dropLit : List Char → List Char → Option (List Char)
  | [], cs => some cs
  | _ :: _, [] => none
  | p :: ps, c :: cs => if p == c then dropLit ps cs else none

/-- Match a token sequence at the start of the input. On success returns
the capture (if a capture token fired) and the remaining input. The
patterns used in the file never need backtracking, so the matcher commits
to greedy choices; this agrees with Python `re` on these patterns. -/
def matchToks : List Tok → List Char → Option (Option (List Char) × List Char)
  | [], cs => some (none, cs)
  | t :: ts, cs =>
    match t with
    | .lit p =>
      match dropLit p cs with
      | none => none
      | some rest => matchToks ts rest
    | .ws => matchToks ts (cs.dropWhile pyIsSpace)
    | .optLit p =>
      match dropLit p cs with
      | none => matchToks ts cs
      | some rest => matchToks ts rest
    | .optLitWs p =>
      match dropLit p cs with
      | none => matchToks ts cs
      | some rest => matchToks ts (rest.dropWhile pyIsSpace)
    | .capNum =>
      let ds := cs.takeWhile isDigit
      let rest := cs.dropWhile isDigit
      if ds.isEmpty then none
      else
        match rest with
        | '.' :: r2 =>
          let fs := r2.takeWhile isDigit
          let r3 := r2.dropWhile isDigit
          if fs.isEmpty then
            match matchToks ts rest with
            | some (_, r) => some (some ds, r)
            | none => none
          else
            match matchToks ts r3 with
            | some (_, r) => some (some (ds ++ '.' :: fs), r)
            | none => none
        | _ =>
          match matchToks ts rest with
          | some (_, r) => some (some ds, r)
          | none => none
    | .capYear =>
      match cs with
      | a :: b :: c :: d :: rest =>
        if isDigit a && isDigit b && isDigit c && isDigit d then
          match matchToks ts rest with
          | some (_, r) => some (some [a, b, c, d], r)
          | none => none
        else none
      | _ => none

/-- The capture of the leftmost match of a pattern (first element of
Python `re.findall`), scanning start positions left to right. -/
def firstMatch (p : List Tok) : List Char → Option (List Char)
  | [] =>
    match matchToks p [] with
    | some (some cap, _) => some cap
    | _ => none
  | c :: rest =>
    match matchToks p (c :: rest) with
    | some (some cap, _) => some cap
    | _ => firstMatch p rest

/-- Fuelled worker for `findAll`.  Matches resume after the end of the
previous match (non-overlapping, as in Python `re.findall`); the fuel is
an upper bound on the number of scanning steps and is always sufficient
when called with `cs.length + 1`.  (The `[cap]` arm guards against a
zero-width match; the patterns in this file always consume input, so it
is unreachable.) -/
def findAllAux (p : List Tok) : Nat → List Char → List (List Char)
  | 0, _ => []
  | fuel + 1, cs =>
    match matchToks p cs with
    | some (some cap, rest) =>
      if rest.length < cs.length then cap :: findAllAux p fuel rest
      else [cap]
    | some (none, _) =>
      match cs with
      | [] => []
      | _ :: rest2 => findAllAux p fuel rest2
    | none =>
      match cs with
      | [] => []
      | _ :: rest2 => findAllAux p fuel rest2

/-- All captures of the non-overlapping matches of a pattern, left to
right: Python `re.findall` for the single-group patterns of the file. -/
def findAll (p : List Tok) (cs : List Char) : List (List Char) :=
  findAllAux p (cs.length + 1) cs

/-- Numeric value of a digit list. -/
def digitsToNat (ds : List Char) : Nat :=
  ds.foldl (fun n c => n * 10 + (c.toNat - ('0').toNat)) 0

/-- Value of a `capNum` capture: Python `float(match)`, `* 60` when the
pattern mentioned hours, then `int(...)` truncation — computed exactly
over naturals (`cap` is `digits` or `digits.digits`, so the value is
nonnegative). -/
def capValue (cap : List Char) (hours : Bool) : Nat :=
  let intPart := cap.takeWhile isDigit
  let frac := (cap.dropWhile isDigit).drop 1
  let den := 10 ^ frac.length
  let num := digitsToNat intPart * den + digitsToNat frac
  (if hours then num * 60 else num) / den

/-! ## Schema (`app/schema.py`) -/

/-- Model of `RecommendationStrategy`: the two A/B strategies. -/
inductive RecommendationStrategy where
  | POPULARITY
  | SIMILARITY
deriving DecidableEq

/-- Model of `Movie` (pydantic model); `popularity` and `rating` are Python floats,
embedded as rationals. -/
structure Movie where
  id : Int
  title : String
  genre : List String
  cast : List String
  overview : String
  runtime : Int
  popularity : ℚ
  release_year : Int
  director : String
  rating : ℚ
deriving DecidableEq

/-- Model of `ParsedFilters` (pydantic model). -/
structure ParsedFilters where
  genres : List String := []
  actors : List String := []
  runtime_min : Option Int := none
  runtime_max : Option Int := none
  vibe : Option String := none
  keywords : List String := []
  year_min : Option Int := none
  year_max : Option Int := none
deriving DecidableEq

/-! ## Query parser tables (`QueryParser.__init__`, `app/mapping.py`) -/

/-- Model of `self.genre_mapping`: canonical genre key → trigger substrings, in
source (dict insertion) order. -/
def genre_mapping : List (String × List String) :=
  [("comedy", ["comedy", "funny", "humor", "humorous", "laugh"]),
   ("drama", ["drama", "serious", "emotional", "touching"]),
   ("thriller", ["thriller", "suspense", "mystery", "suspenseful"]),
   ("action", ["action", "adventure", "exciting", "fast-paced"]),
   ("romance", ["romance", "romantic", "love", "romantic comedy", "rom-com"]),
   ("horror", ["horror", "scary", "frightening", "terrifying"]),
   ("sci-fi", ["sci-fi", "science fiction", "futuristic", "space", "alien"]),
   ("fantasy", ["fantasy", "magical", "wizard", "magic"]),
   ("crime", ["crime", "criminal", "gangster", "mob", "detective"]),
   ("biography", ["biography", "biographical", "true story", "real story"]),
   ("history", ["historical", "history", "period piece"]),
   ("family", ["family", "kids", "children", "family-friendly"])]

/-- Model of `self.actor_mapping`: canonical actor name → variant spellings. -/
def actor_mapping : List (String × List String) :=
  [("tom hanks", ["tom hanks", "thomas hanks"]),
   ("leonardo dicaprio", ["leonardo dicaprio", "leo dicaprio"]),
   ("morgan freeman", ["morgan freeman"]),
   ("robert de niro", ["robert de niro", "bobby de niro"]),
   ("al pacino", ["al pacino", "alfredo pacino"]),
   ("brad pitt", ["brad pitt", "bradley pitt"]),
   ("matt damon", ["matt damon", "matthew damon"]),
   ("julia roberts", ["julia roberts"]),
   ("meryl streep", ["meryl streep"]),
   ("denzel washington", ["denzel washington"]),
   ("keanu reeves", ["keanu reeves"]),
   ("christian bale", ["christian bale"]),
   ("heath ledger", ["heath ledger"]),
   ("robin williams", ["robin williams"]),
   ("anthony hopkins", ["anthony hopkins"]),
   ("jodie foster", ["jodie foster"]),
   ("harrison ford", ["harrison ford"]),
   ("mark hamill", ["mark hamill"]),
   ("carrie fisher", ["carrie fisher"]),
   ("samuel l. jackson", ["samuel l. jackson", "sam jackson"]),
   ("john travolta", ["john travolta"]),
   ("uma thurman", ["uma thurman"]),
   ("tim robbins", ["tim robbins"]),
   ("marlon brando", ["marlon brando"]),
   ("james caan", ["james caan"]),
   ("edward norton", ["edward norton"]),
   ("helena bonham carter", ["helena bonham carter"]),
   ("laurence fishburne", ["laurence fishburne"]),
   ("carrie-anne moss", ["carrie-anne moss"]),
   ("ray liotta", ["ray liotta"]),
   ("joe pesci", ["joe pesci"]),
   ("scott glenn", ["scott glenn"]),
   ("viggo mortensen", ["viggo mortensen"]),
   ("ian mckellen", ["ian mckellen"]),
   ("elijah wood", ["elijah wood"]),
   ("orlando bloom", ["orlando bloom"]),
   ("marion cotillard", ["marion cotillard"]),
   ("tom hardy", ["tom hardy"]),
   ("jack nicholson", ["jack nicholson"]),
   ("louise fletcher", ["louise fletcher"]),
   ("ben affleck", ["ben affleck"]),
   ("kevin spacey", ["kevin spacey"]),
   ("gabriel byrne", ["gabriel byrne"]),
   ("chazz palminteri", ["chazz palminteri"])]

/-- Model of `self.runtime_patterns`, in order.  Each entry carries the token form
of the regex and whether the regex text contains `hour` or `hr` (the
source tests `'hour' in pattern or 'hr' in pattern` on the pattern
string to decide the hours-to-minutes conversion). -/
def runtime_patterns : List (List Tok × Bool) :=
  [ -- (\d+(?:\.\d+)?)\s*minutes?
    ([Tok.capNum, Tok.ws, Tok.lit (("minute").toList), Tok.optLit [ 's' ]], false),
    -- (\d+(?:\.\d+)?)\s*mins?
    ([Tok.capNum, Tok.ws, Tok.lit (("min").toList), Tok.optLit [ 's' ]], false),
    -- (\d+(?:\.\d+)?)\s*hours?
    ([Tok.capNum, Tok.ws, Tok.lit (("hour").toList), Tok.optLit [ 's' ]], true),
    -- (\d+(?:\.\d+)?)\s*hrs?
    ([Tok.capNum, Tok.ws, Tok.lit (("hr").toList), Tok.optLit [ 's' ]], true),
    -- short(?:er)?\s*(?:than\s*)?(\d+(?:\.\d+)?)\s*minutes?
    ([Tok.lit (("short").toList), Tok.optLit (("er").toList), Tok.ws,
      Tok.optLitWs (("than").toList), Tok.capNum, Tok.ws,
      Tok.lit (("minute").toList), Tok.optLit [ 's' ]], false),
    -- long(?:er)?\s*(?:than\s*)?(\d+(?:\.\d+)?)\s*minutes?
    ([Tok.lit (("long").toList), Tok.optLit (("er").toList), Tok.ws,
      Tok.optLitWs (("than").toList), Tok.capNum, Tok.ws,
      Tok.lit (("minute").toList), Tok.optLit [ 's' ]], false),
    -- under\s*(\d+(?:\.\d+)?)\s*minutes?
    ([Tok.lit (("under").toList), Tok.ws, Tok.capNum, Tok.ws,
      Tok.lit (("minute").toList), Tok.optLit [ 's' ]], false),
    -- over\s*(\d+(?:\.\d+)?)\s*hours?
    ([Tok.lit (("over").toList), Tok.ws, Tok.capNum, Tok.ws,
      Tok.lit (("hour").toList), Tok.optLit [ 's' ]], true),
    -- less\s*than\s*(\d+(?:\.\d+)?)\s*minutes?
    ([Tok.lit (("less").toList), Tok.ws, Tok.lit (("than").toList), Tok.ws,
      Tok.capNum, Tok.ws, Tok.lit (("minute").toList), Tok.optLit [ 's' ]], false),
    -- more\s*than\s*(\d+(?:\.\d+)?)\s*hours?
    ([Tok.lit (("more").toList), Tok.ws, Tok.lit (("than").toList), Tok.ws,
      Tok.capNum, Tok.ws, Tok.lit (("hour").toList), Tok.optLit [ 's' ]], true),
    -- short(?:er)?\s*(?:than\s*)?(\d+(?:\.\d+)?)
    ([Tok.lit (("short").toList), Tok.optLit (("er").toList), Tok.ws,
      Tok.optLitWs (("than").toList), Tok.capNum], false),
    -- under\s*(\d+(?:\.\d+)?)
    ([Tok.lit (("under").toList), Tok.ws, Tok.capNum], false)]

/-- Model of `self.vibe_keywords` of the query parser (`mapping.py`). -/
def parser_vibe_keywords : List (String × List String) :=
  [("funny", ["funny", "hilarious", "comedy", "laugh", "humor"]),
   ("serious", ["serious", "dramatic", "intense", "heavy", "emotional"]),
   ("romantic", ["romantic", "love", "romance", "sweet", "cute"]),
   ("exciting", ["exciting", "thrilling", "action-packed", "adrenaline"]),
   ("scary", ["scary", "frightening", "terrifying", "horror"]),
   ("thought-provoking", ["thought-provoking", "deep", "philosophical", "meaningful"]),
   ("light", ["light", "easy", "fun", "entertaining", "feel-good"]),
   ("dark", ["dark", "gritty", "disturbing", "intense"])]

/-- The stop-word set of `_extract_keywords`. -/
def stop_words : List String :=
  ["the", "a", "an", "and", "or", "but", "in", "on", "at", "to", "for", "of",
   "with", "by", "is", "are", "was", "were", "be", "been", "being", "have",
   "has", "had", "do", "does", "did", "will", "would", "could", "should",
   "may", "might", "must", "can", "find", "show", "me", "movies", "movie",
   "film", "films"]

/-! ## Query parser functions (`QueryParser`, `app/mapping.py`) -/

/-- Model of `_extract_genres`: a genre is included when any of its trigger
substrings occurs in the (lowercased) query; the canonical key is
title-cased on output. -/
def extract_genres (q : List Char) : List String :=
  genre_mapping.filterMap fun p =>
    if p.2.any (fun kw => infixB kw.toList q) then some (pyTitle p.1) else none

/-- Model of `_extract_actors`: same trigger mechanism over the actor table. -/
def extract_actors (q : List Char) : List String :=
  actor_mapping.filterMap fun p =>
    if p.2.any (fun kw => infixB kw.toList q) then some (pyTitle p.1) else none

/-- The context test `any(word in query for word in ['short', 'under',
'less than'])` of `_extract_runtime`. -/
def shortCtx (q : List Char) : Bool :=
  infixB (("short").toList) q || infixB (("under").toList) q ||
    infixB (("less than").toList) q

/-- The context test for `['long', 'over', 'more than']`. -/
def longCtx (q : List Char) : Bool :=
  infixB (("long").toList) q || infixB (("over").toList) q ||
    infixB (("more than").toList) q

/-- Value contributed by one runtime pattern: the first `findall` capture
(the inner loop of `_extract_runtime` breaks after the first match),
converted to minutes. -/
def patternVal (p : List Tok × Bool) (q : List Char) : Option Nat :=
  (firstMatch p.1 q).map (fun cap => capValue cap p.2)

/-- One step of the pattern loop of `_extract_runtime`: a matching
pattern assigns `runtime_max` when the query has a short-context word,
else `runtime_min` when it has a long-context word, else `runtime_max`. -/
def runtimeStep (q : List Char) (acc : Option Nat × Option Nat) (v : Nat) :
    Option Nat × Option Nat :=
  if shortCtx q then (acc.1, some v)
  else if longCtx q then (some v, acc.2)
  else (acc.1, some v)

/-- Model of `_extract_runtime`: fold the pattern list in order; each matching
pattern contributes its first match and overwrites the bound chosen by
the query context. Returns `(runtime_min, runtime_max)`. -/
def extract_runtime (q : List Char) : Option Nat × Option Nat :=
  runtime_patterns.foldl
    (fun acc p =>
      match patternVal p q with
      | none => acc
      | some v => runtimeStep q acc v)
    (none, none)

/-- The values of the matching runtime patterns, in pattern-list order
(first `findall` capture of each). -/
def runtimePatternValues (q : List Char) : List Nat :=
  runtime_patterns.filterMap (fun p => patternVal p q)

/-- Model of `_extract_vibe`: the first vibe tag (in table order) with a trigger
substring in the query. -/
def extract_vibe (q : List Char) : Option String :=
  (parser_vibe_keywords.find? (fun p => p.2.any (fun kw => infixB kw.toList q))).map
    (fun p => p.1)

/-- Splitter for `re.findall(r'\b\w+\b', ...)`: maximal runs of word
characters, via an accumulator for the current run (reversed). -/
def wordTokensAux : List Char → List Char → List (List Char)
  | [], acc => if acc.isEmpty then [] else [acc.reverse]
  | c :: rest, acc =>
    if isWordChar c then wordTokensAux rest (c :: acc)
    else if acc.isEmpty then wordTokensAux rest []
    else acc.reverse :: wordTokensAux rest []

/-- All `\w+` word tokens of the input, left to right. -/
def wordTokens (cs : List Char) : List (List Char) := wordTokensAux cs []

/-- Model of `_extract_keywords`: tokenize the lowercased query, drop stop words
and words of length ≤ 2. -/
def extract_keywords (q : List Char) : List String :=
  ((wordTokens (pyLowerL q)).map String.mk).filter
    (fun w => !(stop_words.contains w) && decide (2 < w.length))

/-- The year pattern list of `_extract_year`, in order. -/
def year_patterns : List (List Tok) :=
  [[Tok.capYear],
   [Tok.lit (("from").toList), Tok.ws, Tok.capYear],
   [Tok.lit (("after").toList), Tok.ws, Tok.capYear],
   [Tok.lit (("since").toList), Tok.ws, Tok.capYear],
   [Tok.lit (("before").toList), Tok.ws, Tok.capYear],
   [Tok.lit (("until").toList), Tok.ws, Tok.capYear],
   [Tok.capYear, Tok.lit [ 's' ]],
   [Tok.capYear, Tok.optLit [ 's' ]]]

/-- Model of `from`/`after`/`since` context test of `_extract_year`. -/
def fromCtx (q : List Char) : Bool :=
  infixB (("from").toList) q || infixB (("after").toList) q ||
    infixB (("since").toList) q

/-- Model of `before`/`until` context test of `_extract_year`. -/
def beforeCtx (q : List Char) : Bool :=
  infixB (("before").toList) q || infixB (("until").toList) q

/-- One match step of `_extract_year`: the source tests
`'s' in match or '1990s' in query` for the decade branch (the capture is
always four digits, so the first disjunct never fires), then the
from/before contexts, else sets both bounds to the exact year. -/
def yearStep (q : List Char) (acc : Option Int × Option Int) (cap : List Char) :
    Option Int × Option Int :=
  let year : Int := digitsToNat cap
  if cap.contains 's' || infixB (("1990s").toList) q then
    (some year, some (year + 9))
  else if fromCtx q then (some year, acc.2)
  else if beforeCtx q then (acc.1, some year)
  else (some year, some year)

/-- Model of `_extract_year`: every pattern's every match is processed in order
(there is no break in this loop). Returns `(year_min, year_max)`. -/
def extract_year (q : List Char) : Option Int × Option Int :=
  year_patterns.foldl
    (fun acc p => (findAll p q).foldl (yearStep q) acc)
    (none, none)

/-- Model of `QueryParser.parse_query`: lowercase and strip the query, then run
the individual extractors.  (The `query_type` argument of the source is
ignored by the function; it is omitted here.)  Total: no input raises. -/
def parse_query (query : String) : ParsedFilters :=
  let q := pyStrip (pyLowerL query.toList)
  { genres := extract_genres q
    actors := extract_actors q
    runtime_min := ((extract_runtime q).1).map Int.ofNat
    runtime_max := ((extract_runtime q).2).map Int.ofNat
    vibe := extract_vibe q
    keywords := extract_keywords q
    year_min := (extract_year q).1
    year_max := (extract_year q).2 }

/-! ## Metadata mapper (`MetadataMapper`, `app/mapping.py`) -/

/-- Model of `self.normalized_genres` of `MetadataMapper` (a second, independently
maintained genre table). -/
def normalized_genres : List (String × List String) :=
  [("Comedy", ["comedy", "funny", "humor", "humorous"]),
   ("Drama", ["drama", "serious", "emotional", "touching"]),
   ("Thriller", ["thriller", "suspense", "mystery"]),
   ("Action", ["action", "adventure", "exciting"]),
   ("Romance", ["romance", "romantic", "love"]),
   ("Horror", ["horror", "scary", "frightening"]),
   ("Sci-Fi", ["sci-fi", "science fiction", "futuristic"]),
   ("Fantasy", ["fantasy", "magical", "wizard"]),
   ("Crime", ["crime", "criminal", "gangster"]),
   ("Biography", ["biography", "biographical"]),
   ("History", ["historical", "history"]),
   ("Family", ["family", "kids", "children"])]

/-- The inner loop of `_normalize_genres` for a single genre: the first
standard genre whose variation list contains the lowercased input, or
whose own lowercased name equals it. -/
def normalizeOneGenre (genre : String) : Option String :=
  (normalized_genres.find? fun p =>
      p.2.contains (pyLower genre) || pyLower genre == pyLower p.1).map
    (fun p => p.1)

/-- Model of `_normalize_genres`: map each genre through the table (silently
dropping unmatched ones), then `list(set(...))`.  Python renders the set
in an implementation-defined order; it is embedded as `List.dedup`, and
theorems about it only use its set of elements. -/
def normalize_genres (genres : List String) : List String :=
  (genres.filterMap normalizeOneGenre).dedup

/-- The normalized key-value form produced by `normalize_filters`. -/
structure NormalizedFilters where
  genres : List String
  actors : List String
  runtime_min : Option Int
  runtime_max : Option Int
  vibe : Option String
  keywords : List String
  year_min : Option Int
  year_max : Option Int
deriving DecidableEq

/-- Model of `MetadataMapper.normalize_filters`. -/
def normalize_filters (f : ParsedFilters) : NormalizedFilters :=
  { genres := normalize_genres f.genres
    actors := f.actors.map pyLower
    runtime_min := f.runtime_min
    runtime_max := f.runtime_max
    vibe := f.vibe
    keywords := f.keywords.map pyLower
    year_min := f.year_min
    year_max := f.year_max }

/-! ## Recommendation engine (`RecommendationEngine`, `app/recs.py`) -/

/-- Python list slice `l[:n]` with a (possibly negative) integer bound. -/
def pySlice {α : Type} (l : List α) (n : Int) : List α :=
  if 0 ≤ n then l.take n.toNat else l.take (l.length + n).toNat

/-- The vibe keyword table of `_calculate_vibe_boost` in `recs.py`
(distinct from the parser's table in `mapping.py`). -/
def recs_vibe_keywords : List (String × List String) :=
  [("funny", ["comedy", "funny", "hilarious", "humor", "laugh"]),
   ("serious", ["drama", "serious", "emotional", "intense", "heavy"]),
   ("romantic", ["romance", "romantic", "love", "romantic comedy"]),
   ("exciting", ["action", "thriller", "adventure", "exciting", "thrilling"]),
   ("scary", ["horror", "scary", "frightening", "terrifying"]),
   ("thought-provoking", ["drama", "biography", "history", "philosophical"]),
   ("light", ["comedy", "family", "romance", "fun", "entertaining"]),
   ("dark", ["crime", "thriller", "drama", "gritty", "intense"])]

/-- Model of `_calculate_vibe_boost`: +0.5 per genre tag containing a trigger
substring, +0.1 per trigger occurring in the synopsis, capped at 1;
unknown vibe gives 0. -/
def calculate_vibe_boost (m : Movie) (vibe : String) : ℚ :=
  match recs_vibe_keywords.find? (fun p => p.1 == vibe) with
  | none => 0
  | some p =>
    let b1 : ℚ :=
      ((m.genre.countP fun g => p.2.any fun kw => strIn kw (pyLower g)) : ℚ) * (1 / 2)
    let b2 : ℚ :=
      ((p.2.countP fun kw => strIn kw (pyLower m.overview)) : ℚ) * (1 / 10)
    min (b1 + b2) 1

/-- Python truthiness of the optional vibe string (`if filters.vibe:`):
false for `None` and for the empty string. -/
def vibeTruthy : Option String → Bool
  | none => false
  | some s => !(s == "")

/-- The score assigned to a movie by `_popularity_strategy`: popularity
plus the genre, actor, vibe and runtime-closeness boosts.  The runtime
boost fires only when both bounds are Python-truthy (present and
nonzero). -/
def pop_score (f : ParsedFilters) (m : Movie) : ℚ :=
  let s0 := m.popularity
  let s1 := if f.genres.isEmpty then s0 else
    s0 + ((f.genres.countP fun genre => memLower genre m.genre) : ℚ) * (1 / 2)
  let s2 := if f.actors.isEmpty then s1 else
    s1 + ((f.actors.countP fun actor => memLower actor m.cast) : ℚ) * (3 / 10)
  let s3 :=
    match f.vibe with
    | some v => if v == "" then s2 else s2 + calculate_vibe_boost m v
    | none => s2
  match f.runtime_min, f.runtime_max with
  | some mn, some mx =>
    if mn ≠ 0 ∧ mx ≠ 0 then
      let target : ℚ := ((mn : ℚ) + (mx : ℚ)) / 2
      let diff : ℚ := |(m.runtime : ℚ) - target|
      s3 + max 0 (1 - diff / 60) * (1 / 5)
    else s3
  | _, _ => s3

/-- The comparison used by both strategies: Python
`sort(key=lambda x: x[1], reverse=True)` keeps `a` before `b` whenever
`b`'s score does not exceed `a`'s, and is stable on ties. -/
def descBySnd (a b : Movie × ℚ) : Bool := decide (b.2 ≤ a.2)

/-- Model of `_popularity_strategy`: score every candidate, sort stably by
descending score (`list.sort` with `reverse=True` is a stable sort), and
truncate to `limit` via a Python slice. -/
def popularity_strategy (movies : List Movie) (f : ParsedFilters) (limit : Int) :
    List Movie :=
  let scored := movies.map fun m => (m, pop_score f m)
  let sorted := scored.mergeSort descBySnd
  (pySlice sorted limit).map Prod.fst

/-- A guarded list comprehension `if cond: filtered = [m for m in filtered
if p(m)]` of `_filter_movies`. -/
def condFilter (b : Bool) (p : Movie → Bool) (l : List Movie) : List Movie :=
  if b then l.filter p else l

/-- A comprehension guarded by `x is not None` in `_filter_movies`. -/
def optFilter (o : Option Int) (p : Int → Movie → Bool) (l : List Movie) :
    List Movie :=
  match o with
  | none => l
  | some v => l.filter (p v)

/-- Model of `_filter_movies`: successive list comprehensions, one per present
filter field, in source order. -/
def filter_movies (allMovies : List Movie) (f : ParsedFilters) : List Movie :=
  let l1 := condFilter (!f.genres.isEmpty)
    (fun m => f.genres.any fun genre => memLower genre m.genre) allMovies
  let l2 := condFilter (!f.actors.isEmpty)
    (fun m => f.actors.any fun actor => memLower actor m.cast) l1
  let l3 := optFilter f.runtime_min (fun mn m => decide (mn ≤ m.runtime)) l2
  let l4 := optFilter f.runtime_max (fun mx m => decide (m.runtime ≤ mx)) l3
  let l5 := optFilter f.year_min (fun mn m => decide (mn ≤ m.release_year)) l4
  let l6 := optFilter f.year_max (fun mx m => decide (m.release_year ≤ mx)) l5
  condFilter (!f.keywords.isEmpty)
    (fun m => (f.keywords.map pyLower).any fun kw => strIn kw (pyLower m.overview)) l6

/-- The additive boost of `_similarity_strategy` (genre +0.3, actor +0.2,
vibe boost as in the popularity strategy). -/
def sim_boost (f : ParsedFilters) (m : Movie) : ℚ :=
  let b1 : ℚ := if f.genres.isEmpty then 0 else
    ((f.genres.countP fun genre => memLower genre m.genre) : ℚ) * (3 / 10)
  let b2 := if f.actors.isEmpty then b1 else
    b1 + ((f.actors.countP fun actor => memLower actor m.cast) : ℚ) * (1 / 5)
  match f.vibe with
  | some v => if v == "" then b2 else b2 + calculate_vibe_boost m v
  | none => b2

/-- The index lookup of `_similarity_strategy`: first catalog position
whose movie id equals the candidate's id. -/
def movie_index (allMovies : List Movie) (m : Movie) : Option Nat :=
  allMovies.findIdx? fun x => x.id == m.id

/-- Model of `_similarity_strategy`.  `sim i` abstracts the cosine similarity of
the query document against the precomputed TF-IDF row of catalog index
`i` (scikit-learn is outside the embedding; every theorem below holds
for an arbitrary `sim`).  The vectorizer built in `__init__` is always
truthy, so the early return fires only for an empty candidate list. -/
def similarity_strategy (allMovies : List Movie) (sim : Nat → ℚ)
    (movies : List Movie) (f : ParsedFilters) (limit : Int) : List Movie :=
  if movies.isEmpty then pySlice movies limit
  else
    let sims := movies.map fun m =>
      match movie_index allMovies m with
      | some i => (m, sim i + sim_boost f m)
      | none => (m, 0)
    let sorted := sims.mergeSort descBySnd
    (pySlice sorted limit).map Prod.fst

/-- Model of `RecommendationEngine.get_recommendations`: filter, then dispatch on
the strategy variant.  The popularity branch returns `[]` on an empty
candidate set; the similarity branch falls back to the full catalog.
Total: no limit validation is performed and no input raises. -/
def get_recommendations (allMovies : List Movie) (sim : Nat → ℚ)
    (f : ParsedFilters) (variant : RecommendationStrategy) (limit : Int) :
    List Movie :=
  let filtered := filter_movies allMovies f
  match variant with
  | .POPULARITY =>
    if filtered.isEmpty then [] else popularity_strategy filtered f limit
  | .SIMILARITY =>
    similarity_strategy allMovies sim
      (if filtered.isEmpty then allMovies else filtered) f limit

/-- Model of `RecommendationEngine.assign_variant`: `hash(session_id) % 2`
decides the bucket.  `pyHash` abstracts the process-fixed Python string
hash; Python `%` on a negative left operand is `Int.emod`, which is
nonnegative for a positive modulus. -/
def assign_variant (pyHash : String → Int) (session_id : String) :
    RecommendationStrategy :=
  if pyHash session_id % 2 == 0 then RecommendationStrategy.POPULARITY
  else RecommendationStrategy.SIMILARITY

/-! ## Spec-side predicates and concrete data used by the theorems -/

/-- The retention predicate of the spec (section 4.3): for every present
filter field at least one corresponding attribute matches.  Genre/cast
are the case-insensitive `in`-the-set test, duration/year are interval
bounds as present, keywords are a case-insensitive substring-in-synopsis
test satisfied by any keyword.  Absent fields impose no constraint. -/
def specRetains (f : ParsedFilters) (m : Movie) : Prop :=
  (f.genres ≠ [] → ∃ g ∈ f.genres, memLower g m.genre = true) ∧
  (f.actors ≠ [] → ∃ a ∈ f.actors, memLower a m.cast = true) ∧
  (∀ mn, f.runtime_min = some mn → mn ≤ m.runtime) ∧
  (∀ mx, f.runtime_max = some mx → m.runtime ≤ mx) ∧
  (∀ mn, f.year_min = some mn → mn ≤ m.release_year) ∧
  (∀ mx, f.year_max = some mx → m.release_year ≤ mx) ∧
  (f.keywords ≠ [] → ∃ k ∈ f.keywords, strIn (pyLower k) (pyLower m.overview) = true)

/-- The canonical genre names the interpreter can emit: the title-cased
keys of its genre table. -/
def interp_canonical : List String := genre_mapping.map fun p => pyTitle p.1

/-- Test queries (from the spec's testable properties and the tests). -/
def q_short120 : String := "find movies shorter than 120 minutes"

def q_long90 : String := "find movies longer than 90 minutes"

def q_1990s : String := "find movies from the 1990s"

def q_1980s : String := "find movies from the 1980s"

/-- A query matched by several runtime patterns with different values:
pattern 1 (`minutes`) captures 90, pattern 3 (`hours`) captures 2 and
converts to 120. -/
def q_multi : String := "90 minutes and 2 hours"

/-- Concrete movies for witnesses and counterexamples. -/
def mv1 : Movie :=
  { id := 1, title := "A", genre := ["Comedy"], cast := ["Tom Hanks"],
    overview := "a funny war story", runtime := 100, popularity := 2,
    release_year := 1995, director := "d1", rating := 7 }

def mv2 : Movie :=
  { id := 2, title := "B", genre := ["Drama"], cast := ["X"],
    overview := "sad tale", runtime := 150, popularity := 1,
    release_year := 2005, director := "d2", rating := 6 }

/-- Filters matching nothing in `[mv1, mv2]`. -/
def fNoMatch : ParsedFilters := { genres := ["Horror"] }

/-! # Theorems -/

/-- C1: strategy assignment is deterministic and stable — for a fixed
process hash function, `assign_variant` is a pure function of the
session identifier alone (no call time, randomness or global counter
enters the embedding), so two calls with the same identifier agree. -/
theorem assign_variant_deterministic (pyHash : String → Int) (s t : String)
    (h : s = t) : assign_variant pyHash s = assign_variant pyHash t := by
  rw [h]

/-- Witness for C1 at a concrete hash function and session id. -/
theorem assign_variant_deterministic_witness :
    assign_variant (fun _ => 7) ("session-42") =
      assign_variant (fun _ => 7) ("session-42") :=
  assign_variant_deterministic (fun _ => 7) ("session-42") ("session-42") rfl

/-- C9: parsing the empty query never raises (the embedding is a total
function) and yields all-empty structured filters: no genres, no actors,
no keywords, no mood, and no duration or year bounds. -/
theorem parse_query_empty :
    parse_query ("") =
      { genres := [], actors := [], runtime_min := none, runtime_max := none,
        vibe := none, keywords := [], year_min := none, year_max := none } := by
  decide

/-! ## The runtime-extraction fold -/

/-- Two consecutive assignments by the runtime loop: the second one wins
(the branch taken depends only on the query, so both steps write the
same component). -/
theorem runtimeStep_runtimeStep (q : List Char) (acc : Option Nat × Option Nat)
    (v w : Nat) : runtimeStep q (runtimeStep q acc v) w = runtimeStep q acc w := by
  unfold runtimeStep
  split <;> [skip; split] <;> simp

/-- The pattern loop of `_extract_runtime`, over an arbitrary pattern
list: the result is the initial accumulator when no pattern matches, and
otherwise a single assignment of the LAST matching pattern's value. -/
theorem runtime_foldl_spec (q : List Char) :
    ∀ (ps : List (List Tok × Bool)) (acc : Option Nat × Option Nat),
      ps.foldl
          (fun acc p =>
            match patternVal p q with
            | none => acc
            | some v => runtimeStep q acc v)
          acc =
        match (ps.filterMap fun p => patternVal p q).getLast? with
        | none => acc
        | some v => runtimeStep q acc v := by
  intro ps
  induction ps with
  | nil => intro acc; rfl
  | cons p ps ih =>
    intro acc
    rw [List.foldl_cons, List.filterMap_cons]
    cases hp : patternVal p q with
    | none => simpa using ih acc
    | some v =>
      rw [ih (runtimeStep q acc v)]
      cases hps : (ps.filterMap fun p => patternVal p q) with
      | nil => simp
      | cons w ws =>
        simp only [List.getLast?_cons_cons, runtimeStep_runtimeStep]
        cases hu : (w :: ws).getLast? with
        | none => simp at hu
        | some u => rfl

/-- C4 (amended): in duration extraction the `break` only leaves the
inner match loop, so each pattern in the ordered list contributes the
first match of its own `findall`, later matching patterns overwrite
earlier ones, and the extracted value is that of the LAST matching
pattern in the list (placed as min or max by the query's direction
words) — not the first. -/
theorem runtime_last_pattern_wins (q : List Char) :
    extract_runtime q =
      match (runtimePatternValues q).getLast? with
      | none => (none, none)
      | some v => runtimeStep q (none, none) v :=
  runtime_foldl_spec q runtime_patterns (none, none)

/-- C4 (counterexample): on `"90 minutes and 2 hours"` the first
matching pattern (`(\d+...)\s*minutes?`) captures 90, but the extraction
returns 120 — the value of the later `hours` pattern — so
first-pattern-wins is false on the code. -/
theorem runtime_first_pattern_counterexample :
    (runtimePatternValues q_multi.toList).head? = some 90 ∧
    extract_runtime q_multi.toList = (none, some 120) ∧
    (none, some 120) ≠ ((none, some 90) : Option Nat × Option Nat) := by
  refine ⟨by decide, by decide, by decide⟩

/-- C6: duration extraction sets at most one bound per call; the bound
written is chosen by the query context (short/under/less-than words give
the maximum, else long/over/more-than words give the minimum, else the
maximum by default) and receives the extracted value; in particular
`"find movies shorter than 120 minutes"` yields max 120 with min unset
and `"find movies longer than 90 minutes"` yields min 90 with max
unset. -/
theorem runtime_single_bound :
    (∀ q : List Char,
      ((extract_runtime q).1 = none ∨ (extract_runtime q).2 = none) ∧
      (shortCtx q = true →
        (extract_runtime q).1 = none ∧
        ∀ v, (runtimePatternValues q).getLast? = some v →
          (extract_runtime q).2 = some v) ∧
      (shortCtx q = false → longCtx q = true →
        (extract_runtime q).2 = none ∧
        ∀ v, (runtimePatternValues q).getLast? = some v →
          (extract_runtime q).1 = some v) ∧
      (shortCtx q = false → longCtx q = false →
        (extract_runtime q).1 = none ∧
        ∀ v, (runtimePatternValues q).getLast? = some v →
          (extract_runtime q).2 = some v)) ∧
    (parse_query q_short120).runtime_max = some 120 ∧
    (parse_query q_short120).runtime_min = none ∧
    (parse_query q_long90).runtime_min = some 90 ∧
    (parse_query q_long90).runtime_max = none := by
  refine ⟨?_, by decide, by decide, by decide, by decide⟩
  intro q
  have h := runtime_foldl_spec q runtime_patterns (none, none)
  rw [extract_runtime, h]
  have hback : (runtime_patterns.filterMap fun p => patternVal p q) =
      runtimePatternValues q := rfl
  rw [hback]
  cases hv : (runtimePatternValues q).getLast? with
  | none => simp
  | some v =>
    unfold runtimeStep
    cases hs : shortCtx q <;> cases hl : longCtx q <;> simp [hs, hl]

/-- Witness for C6, instantiating the direction clause at the concrete
short-context query. -/
theorem runtime_single_bound_witness :
    shortCtx (pyStrip (pyLowerL q_short120.toList)) = true ∧
    (extract_runtime (pyStrip (pyLowerL q_short120.toList))).1 = none :=
  ⟨by decide, ((runtime_single_bound.1 _).2.1 (by decide)).1⟩

/-! ## The year-extraction fold -/

/-- A successful `prefixB` exposes the needle as a leading segment. -/
theorem prefixB_exists {n s : List Char} (h : prefixB n s = true) :
    ∃ t, s = n ++ t := by
  induction n generalizing s with
  | nil => exact ⟨s, rfl⟩
  | cons p ps ih =>
    cases s with
    | nil => exact absurd h (by simp [prefixB])
    | cons c cs =>
      rw [prefixB, Bool.and_eq_true, beq_iff_eq] at h
      obtain ⟨t, ht⟩ := ih h.2
      exact ⟨t, by rw [h.1, ht]; rfl⟩

/-- A successful substring test exposes a suffix starting with the
needle. -/
theorem infixB_suffix {n cs : List Char} (h : infixB n cs = true) :
    ∃ s, s <:+ cs ∧ prefixB n s = true := by
  induction cs with
  | nil =>
    rw [infixB, List.isEmpty_iff] at h
    exact ⟨[], List.suffix_refl [], by rw [h]; rfl⟩
  | cons c rest ih =>
    rw [infixB, Bool.or_eq_true] at h
    cases h with
    | inl h => exact ⟨c :: rest, List.suffix_refl _, h⟩
    | inr h =>
      obtain ⟨s, hs, hp⟩ := ih h
      exact ⟨s, hs.trans (List.suffix_cons c rest), hp⟩

/-- Unfolding equation for the successor case of `findAllAux`. -/
theorem findAllAux_succ (p : List Tok) (fuel : Nat) (cs : List Char) :
    findAllAux p (fuel + 1) cs =
      match matchToks p cs with
      | some (some cap, rest) =>
        if rest.length < cs.length then cap :: findAllAux p fuel rest
        else [cap]
      | some (none, _) =>
        match cs with
        | [] => []
        | _ :: rest2 => findAllAux p fuel rest2
      | none =>
        match cs with
        | [] => []
        | _ :: rest2 => findAllAux p fuel rest2 := rfl

/-- If some suffix of the input matches the pattern (with a capture),
the fuelled scan finds at least one match. -/
theorem findAllAux_ne_nil (p : List Tok) (fuel : Nat) :
    ∀ cs : List Char, cs.length < fuel →
      (∃ s, s <:+ cs ∧ ∃ cap rest, matchToks p s = some (some cap, rest)) →
      findAllAux p fuel cs ≠ [] := by
  induction fuel with
  | zero => intro cs h _; exact absurd h (Nat.not_lt_zero _)
  | succ fuel ih =>
    rintro cs hlen ⟨s, hsuf, cap, rest, hmatch⟩
    rw [findAllAux_succ]
    cases hm : matchToks p cs with
    | some pr =>
      obtain ⟨copt, r⟩ := pr
      cases copt with
      | some c2 =>
        split
        · split <;> simp
        · simp_all
        · simp_all
      | none =>
        cases cs with
        | nil =>
          rw [List.suffix_nil] at hsuf
          rw [hsuf] at hmatch
          rw [hmatch] at hm
          exact absurd hm (by simp)
        | cons c cs2 =>
          refine ih cs2 (by simpa using hlen) ⟨s, ?_, cap, rest, hmatch⟩
          rcases List.suffix_cons_iff.mp hsuf with h1 | h1
          · rw [h1] at hmatch; rw [hmatch] at hm; exact absurd hm (by simp)
          · exact h1
    | none =>
      cases cs with
      | nil =>
        rw [List.suffix_nil] at hsuf
        rw [hsuf] at hmatch
        rw [hmatch] at hm
        exact absurd hm (by simp)
      | cons c cs2 =>
        refine ih cs2 (by simpa using hlen) ⟨s, ?_, cap, rest, hmatch⟩
        rcases List.suffix_cons_iff.mp hsuf with h1 | h1
        · rw [h1] at hmatch; rw [hmatch] at hm; exact absurd hm (by simp)
        · exact h1

/-- The bare `(\d{4})` pattern matches at the start of `"1990s" ++ t`. -/
theorem matchToks_capYear_1990s (t : List Char) :
    matchToks [Tok.capYear] (("1990s").toList ++ t) =
      some (some (("1990").toList), 's' :: t) := rfl

/-- Under the `'1990s' in query` condition every match assignment of
`_extract_year` writes a decade pair. -/
theorem yearStep_decade {q : List Char} (hq : infixB (("1990s").toList) q = true)
    (acc : Option Int × Option Int) (cap : List Char) :
    ∃ y, yearStep q acc cap = (some y, some (y + 9)) := by
  refine ⟨digitsToNat cap, ?_⟩
  unfold yearStep
  rw [hq]
  simp

/-- The inner match loop of `_extract_year`, under the decade condition:
a nonempty match list always leaves a decade pair. -/
theorem year_inner_decade {q : List Char}
    (hq : infixB (("1990s").toList) q = true) :
    ∀ (caps : List (List Char)) (acc : Option Int × Option Int), caps ≠ [] →
      ∃ y, caps.foldl (yearStep q) acc = (some y, some (y + 9)) := by
  intro caps
  induction caps with
  | nil => intro acc h; exact absurd rfl h
  | cons c cs ih =>
    intro acc _
    rw [List.foldl_cons]
    cases cs with
    | nil => simpa using yearStep_decade hq acc c
    | cons c2 cs2 => exact ih (yearStep q acc c) (by simp)

/-- The outer pattern loop of `_extract_year`, under the decade
condition, preserves the decade-pair form of the accumulator. -/
theorem year_outer_decade {q : List Char}
    (hq : infixB (("1990s").toList) q = true) :
    ∀ (pats : List (List Tok)) (acc : Option Int × Option Int),
      (∃ y, acc = (some y, some (y + 9))) →
      ∃ y, pats.foldl (fun a p => (findAll p q).foldl (yearStep q) a) acc =
        (some y, some (y + 9)) := by
  intro pats
  induction pats with
  | nil => intro acc h; simpa using h
  | cons p ps ih =>
    intro acc h
    rw [List.foldl_cons]
    cases hc : findAll p q with
    | nil => exact ih acc h
    | cons c cs => exact ih _ (year_inner_decade hq (c :: cs) acc (by simp))

/-- C5 (amended): the decade branch of year extraction fires exactly when
the literal substring `"1990s"` occurs in the query (the capture is
always four digits, so `'s' in match` never holds); when it does, every
assignment sets `(year, year + 9)`, so the result is a decade pair — in
particular `"find movies from the 1990s"` yields min 1990, max 1999.
Other decade spellings fall through to the qualifier rules. -/
theorem extract_year_decade :
    (∀ q : List Char, infixB (("1990s").toList) q = true →
      ∃ y, extract_year q = (some y, some (y + 9))) ∧
    (parse_query q_1990s).year_min = some 1990 ∧
    (parse_query q_1990s).year_max = some 1999 := by
  refine ⟨?_, by decide, by decide⟩
  intro q hq
  obtain ⟨s, hsuf, hpre⟩ := infixB_suffix hq
  obtain ⟨t, rfl⟩ := prefixB_exists hpre
  have hne : findAll [Tok.capYear] q ≠ [] := by
    refine findAllAux_ne_nil _ _ q (Nat.lt_succ_self _) ?_
    exact ⟨("1990s").toList ++ t, hsuf, ("1990").toList, 's' :: t,
      matchToks_capYear_1990s t⟩
  unfold extract_year year_patterns
  rw [List.foldl_cons]
  cases hc : findAll [Tok.capYear] q with
  | nil => exact absurd hc hne
  | cons c cs =>
    exact year_outer_decade hq _ _ (year_inner_decade hq (c :: cs) (none, none) (by simp))

/-- C5 (counterexample): `"find movies from the 1980s"` contains the
decade shorthand `"1980s"`, but year extraction returns min 1980 with NO
maximum (the `'from'` qualifier branch fires instead), not max 1989 as
the claim requires. -/
theorem decade_1980s_counterexample :
    infixB (("1980s").toList) (pyStrip (pyLowerL q_1980s.toList)) = true ∧
    (parse_query q_1980s).year_min = some 1980 ∧
    (parse_query q_1980s).year_max = none := by
  refine ⟨by decide, by decide, by decide⟩

/-- Witness for C5, instantiating the decade clause at a concrete
query. -/
theorem extract_year_decade_witness :
    ∃ y, extract_year (pyStrip (pyLowerL q_1990s.toList)) =
      (some y, some (y + 9)) :=
  extract_year_decade.1 _ (by decide)

/-! ## Candidate filtering -/

/-- Membership through one guarded comprehension. -/
theorem mem_condFilter {b : Bool} {p : Movie → Bool} {l : List Movie} {m : Movie} :
    m ∈ condFilter b p l ↔ m ∈ l ∧ (b = true → p m = true) := by
  cases b <;> simp [condFilter, List.mem_filter]

/-- Membership through one optional-bound comprehension. -/
theorem mem_optFilter {o : Option Int} {p : Int → Movie → Bool} {l : List Movie}
    {m : Movie} :
    m ∈ optFilter o p l ↔ m ∈ l ∧ ∀ v, o = some v → p v m = true := by
  cases o <;> simp [optFilter, List.mem_filter]

/-- C7: candidate filtering is a conjunction over the present filter
fields only — an item survives `_filter_movies` iff it is a catalog item
satisfying, for every present field, the corresponding match (genre/cast
by the case-insensitive `in`-the-list test, duration and year by the
bounds as present, keywords by a case-insensitive substring-in-synopsis
test satisfied by any keyword); absent fields impose no constraint, and
with no filters set every catalog item passes. -/
theorem filter_movies_conjunction :
    (∀ (cat : List Movie) (f : ParsedFilters) (m : Movie),
      m ∈ filter_movies cat f ↔ m ∈ cat ∧ specRetains f m) ∧
    (∀ cat : List Movie, filter_movies cat {} = cat) := by
  constructor
  · intro cat f m
    simp only [filter_movies, mem_condFilter, mem_optFilter]
    simp only [specRetains, List.any_eq_true, Bool.not_eq_true',
      List.isEmpty_eq_false, List.mem_map, decide_eq_true_eq]
    constructor
    · rintro ⟨⟨⟨⟨⟨⟨⟨hm, hg⟩, ha⟩, h3⟩, h4⟩, h5⟩, h6⟩, h7⟩
      refine ⟨hm, hg, ha, h3, h4, h5, h6, fun h => ?_⟩
      obtain ⟨x, ⟨a, ha2, rfl⟩, hx⟩ := h7 h
      exact ⟨a, ha2, hx⟩
    · rintro ⟨hm, hg, ha, h3, h4, h5, h6, h7⟩
      refine ⟨⟨⟨⟨⟨⟨⟨hm, hg⟩, ha⟩, h3⟩, h4⟩, h5⟩, h6⟩, fun h => ?_⟩
      obtain ⟨k, hk, hK⟩ := h7 h
      exact ⟨pyLower k, ⟨k, hk, rfl⟩, hK⟩
  · intro cat
    rfl

/-! ## The two genre tables -/

/-- Every genre the interpreter emits is one of its 12 title-cased
canonical names. -/
theorem extract_genres_canonical {q : List Char} {g : String}
    (h : g ∈ extract_genres q) : g ∈ interp_canonical := by
  obtain ⟨p, hp, he⟩ := List.mem_filterMap.mp h
  rw [interp_canonical]
  split at he
  · exact List.mem_map.mpr ⟨p, hp, by injection he⟩
  · exact absurd he (by simp)

/-- Each of the interpreter's canonical genre names is mapped to itself
by the normalizer's table. -/
theorem canonical_fixed : ∀ g ∈ interp_canonical, normalizeOneGenre g = some g := by
  decide

/-- Applying `filterMap` over a list on which the pointwise map is the identity. -/
theorem filterMap_id_of_forall {gs : List String}
    (h : ∀ g ∈ gs, normalizeOneGenre g = some g) :
    gs.filterMap normalizeOneGenre = gs := by
  induction gs with
  | nil => rfl
  | cons g gs ih =>
    have hg := h g (List.mem_cons_self g gs)
    simp only [List.filterMap_cons, hg]
    exact congrArg (List.cons g) (ih fun x hx => h x (List.mem_cons_of_mem g hx))

/-- C10: the interpreter's genre-trigger table and the normalizer's genre
table agree on every genre the interpreter can emit — each of the 12
title-cased canonical names is mapped to itself by the normalizer, so
normalizing the interpreter's output yields exactly the deduplicated set
of the extracted genres (as a set: Python renders `list(set(...))` in an
implementation-defined order), never dropping or renaming one. -/
theorem genre_tables_agree :
    (∀ q : String,
      ((normalize_filters (parse_query q)).genres).toFinset =
        ((parse_query q).genres).toFinset) ∧
    interp_canonical.all (fun g => normalizeOneGenre g == some g) = true := by
  constructor
  · intro q
    have hsub : ∀ g ∈ (parse_query q).genres, normalizeOneGenre g = some g :=
      fun g hg => canonical_fixed g (extract_genres_canonical hg)
    show (normalize_genres ((parse_query q).genres)).toFinset = _
    rw [normalize_genres, filterMap_id_of_forall hsub]
    ext a
    simp [List.mem_dedup]
  · decide

/-! ## Ranking: the popularity strategy -/

/-- The descending-score comparison is transitive. -/
theorem descBySnd_trans (a b c : Movie × ℚ) (h1 : descBySnd a b = true)
    (h2 : descBySnd b c = true) : descBySnd a c = true := by
  simp only [descBySnd, decide_eq_true_eq] at h1 h2 ⊢
  exact h2.trans h1

/-- The descending-score comparison is total. -/
theorem descBySnd_total (a b : Movie × ℚ) :
    (descBySnd a b || descBySnd b a) = true := by
  simp only [descBySnd, Bool.or_eq_true, decide_eq_true_eq]
  exact le_total b.2 a.2

/-- A guarded comprehension only removes elements. -/
theorem condFilter_sublist (b : Bool) (p : Movie → Bool) (l : List Movie) :
    (condFilter b p l).Sublist l := by
  cases b <;> simp [condFilter, List.filter_sublist]

/-- An optional-bound comprehension only removes elements. -/
theorem optFilter_sublist (o : Option Int) (p : Int → Movie → Bool)
    (l : List Movie) : (optFilter o p l).Sublist l := by
  cases o <;> simp [optFilter, List.filter_sublist]

/-- The candidate set is a sublist of the catalog (in catalog order). -/
theorem filter_movies_sublist (cat : List Movie) (f : ParsedFilters) :
    (filter_movies cat f).Sublist cat := by
  unfold filter_movies
  exact (condFilter_sublist _ _ _).trans
    ((optFilter_sublist _ _ _).trans
      ((optFilter_sublist _ _ _).trans
        ((optFilter_sublist _ _ _).trans
          ((optFilter_sublist _ _ _).trans
            ((condFilter_sublist _ _ _).trans (condFilter_sublist _ _ _))))))

/-- Core specification of `_popularity_strategy` on an arbitrary
candidate list: the output has at most `limit` elements, is sorted by
non-increasing score, and within each score class is a prefix of the
candidate list filtered to that class (stability of the sort plus
truncation). -/
theorem popularity_strategy_spec (l : List Movie) (f : ParsedFilters)
    (limit : Int) (hl : 0 ≤ limit) :
    ((popularity_strategy l f limit).length : Int) ≤ limit ∧
    (popularity_strategy l f limit).Pairwise
      (fun a b => pop_score f b ≤ pop_score f a) ∧
    ∀ c : ℚ,
      (popularity_strategy l f limit).filter (fun m => decide (pop_score f m = c)) <+:
        l.filter (fun m => decide (pop_score f m = c)) := by
  have hps : popularity_strategy l f limit =
      (pySlice ((l.map fun m => (m, pop_score f m)).mergeSort descBySnd) limit).map
        Prod.fst := rfl
  set scored := l.map fun m => (m, pop_score f m) with hscored
  set sorted := scored.mergeSort descBySnd with hsorted
  have hslice : pySlice sorted limit = sorted.take limit.toNat := if_pos hl
  have hmem : ∀ x ∈ sorted, x.2 = pop_score f x.1 := by
    intro x hx
    obtain ⟨m, _, rfl⟩ := List.mem_map.mp (List.mem_mergeSort.mp hx)
    rfl
  refine ⟨?_, ?_, ?_⟩
  · rw [hps, hslice, List.length_map, List.length_take]
    have h2 : limit.toNat ⊓ sorted.length ≤ limit.toNat := Nat.min_le_left _ _
    omega
  · rw [hps, hslice, List.pairwise_map]
    have hpw : sorted.Pairwise (fun a b => descBySnd a b = true) :=
      List.sorted_mergeSort descBySnd_trans descBySnd_total scored
    have hpw2 : (sorted.take limit.toNat).Pairwise (fun a b => descBySnd a b = true) :=
      List.Pairwise.sublist (List.take_sublist _ _) hpw
    refine List.Pairwise.imp_of_mem ?_ hpw2
    intro a b ha hb hab
    have ha2 := hmem a (List.mem_of_mem_take ha)
    have hb2 := hmem b (List.mem_of_mem_take hb)
    simp only [descBySnd, decide_eq_true_eq] at hab
    rw [ha2, hb2] at hab
    exact hab
  · intro c
    set p : Movie × ℚ → Bool := fun x => decide (x.2 = c) with hp
    have hql : scored.filter p =
        (l.filter fun m => decide (pop_score f m = c)).map
          (fun m => (m, pop_score f m)) := by
      rw [hscored, List.filter_map]
      rfl
    have hstep1 : sorted.filter p = scored.filter p := by
      have hsub : (scored.filter p).Sublist scored := List.filter_sublist _
      have hpair : (scored.filter p).Pairwise (fun a b => descBySnd a b = true) := by
        refine List.pairwise_of_forall_mem_list ?_
        intro a ha b hb
        have ha2 : p a = true := (List.mem_filter.mp ha).2
        have hb2 : p b = true := (List.mem_filter.mp hb).2
        simp only [hp, decide_eq_true_eq] at ha2 hb2
        simp [descBySnd, ha2, hb2]
      have hsl : (scored.filter p).Sublist sorted :=
        List.sublist_mergeSort descBySnd_trans descBySnd_total hpair hsub
      have hperm : (sorted.filter p).Perm (scored.filter p) :=
        (List.mergeSort_perm scored descBySnd).filter p
      have hid : (scored.filter p).filter p = scored.filter p :=
        List.filter_eq_self.mpr fun a ha => (List.mem_filter.mp ha).2
      have hsl2 : (scored.filter p).Sublist (sorted.filter p) := by
        have h0 := List.Sublist.filter p hsl
        rwa [hid] at h0
      exact (hsl2.eq_of_length hperm.length_eq.symm).symm
    have htake : (sorted.take limit.toNat).filter p <+: sorted.filter p :=
      List.IsPrefix.filter p ⟨sorted.drop limit.toNat, List.take_append_drop _ _⟩
    rw [hps, hslice]
    have hout : ((sorted.take limit.toNat).map Prod.fst).filter
          (fun m => decide (pop_score f m = c)) =
        ((sorted.take limit.toNat).filter p).map Prod.fst := by
      rw [List.filter_map]
      refine congrArg _ (List.filter_congr ?_)
      intro x hx
      have hx2 := hmem x (List.mem_of_mem_take hx)
      simp [hp, Function.comp, hx2]
    rw [hout]
    have hlq : (scored.filter p).map Prod.fst =
        l.filter fun m => decide (pop_score f m = c) := by
      rw [hql, List.map_map]
      have hcomp : (Prod.fst ∘ fun m : Movie => (m, pop_score f m)) = id := rfl
      rw [hcomp, List.map_id]
    calc ((sorted.take limit.toNat).filter p).map Prod.fst
        <+: (sorted.filter p).map Prod.fst := List.IsPrefix.map _ htake
      _ = (scored.filter p).map Prod.fst := by rw [hstep1]
      _ = l.filter fun m => decide (pop_score f m = c) := hlq

/-- C2: for every filters value and every limit > 0, recommending with
the Popularity strategy returns at most `limit` items, sorted by
non-increasing score (popularity plus boosts); ties between equal-scored
items are broken by catalog iteration order — within each score class
the output is a prefix of the candidate list restricted to that class,
and the candidate list itself preserves catalog order. -/
theorem popularity_recommend_spec (cat : List Movie) (sim : Nat → ℚ)
    (f : ParsedFilters) (limit : Int) (hl : 0 < limit) :
    ((get_recommendations cat sim f .POPULARITY limit).length : Int) ≤ limit ∧
    (get_recommendations cat sim f .POPULARITY limit).Pairwise
      (fun a b => pop_score f b ≤ pop_score f a) ∧
    (∀ c : ℚ,
      (get_recommendations cat sim f .POPULARITY limit).filter
          (fun m => decide (pop_score f m = c)) <+:
        (filter_movies cat f).filter (fun m => decide (pop_score f m = c))) ∧
    (filter_movies cat f).Sublist cat := by
  have hrec : get_recommendations cat sim f .POPULARITY limit =
      if (filter_movies cat f).isEmpty then []
      else popularity_strategy (filter_movies cat f) f limit := rfl
  by_cases he : (filter_movies cat f).isEmpty = true
  · rw [hrec, if_pos he]
    exact ⟨by simpa using hl.le, List.Pairwise.nil,
      fun c => List.nil_prefix, filter_movies_sublist cat f⟩
  · rw [hrec, if_neg he]
    obtain ⟨h1, h2, h3⟩ := popularity_strategy_spec (filter_movies cat f) f limit hl.le
    exact ⟨h1, h2, h3, filter_movies_sublist cat f⟩

/-- Witness for C2 at a concrete catalog, empty filters and limit 1. -/
theorem popularity_recommend_spec_witness :
    ((get_recommendations [mv1, mv2] (fun _ => 0) {} .POPULARITY 1).length : Int) ≤ 1 :=
  (popularity_recommend_spec [mv1, mv2] (fun _ => 0) {} 1 (by decide)).1

/-- C3: when attribute filtering leaves no candidates, the Popularity
strategy returns the empty sequence (no fallback), while the Similarity
strategy falls back to the full catalog and — for limit > 0 on a
non-empty catalog — returns a non-empty sequence drawn from the full
catalog; both embedded strategies are total functions (no input
raises). -/
theorem empty_candidates (cat : List Movie) (sim : Nat → ℚ) (f : ParsedFilters)
    (limit : Int) (h : filter_movies cat f = []) :
    get_recommendations cat sim f .POPULARITY limit = [] ∧
    (cat ≠ [] → 0 < limit →
      get_recommendations cat sim f .SIMILARITY limit ≠ [] ∧
      ∀ m ∈ get_recommendations cat sim f .SIMILARITY limit, m ∈ cat) := by
  have he : (filter_movies cat f).isEmpty = true := by rw [h]; rfl
  constructor
  · show (if (filter_movies cat f).isEmpty then []
      else popularity_strategy (filter_movies cat f) f limit) = []
    rw [if_pos he]
  · intro hcat hlim
    have hsimrec : get_recommendations cat sim f .SIMILARITY limit =
        similarity_strategy cat sim cat f limit := by
      show similarity_strategy cat sim
        (if (filter_movies cat f).isEmpty then cat else filter_movies cat f) f limit = _
      rw [if_pos he]
    rw [hsimrec]
    have hce : cat.isEmpty = false := List.isEmpty_eq_false.mpr hcat
    set sims := cat.map (fun m =>
      match movie_index cat m with
      | some i => (m, sim i + sim_boost f m)
      | none => (m, 0)) with hsims
    have hss : similarity_strategy cat sim cat f limit =
        (pySlice (sims.mergeSort descBySnd) limit).map Prod.fst := by
      unfold similarity_strategy
      rw [hce]
      rfl
    set sorted := sims.mergeSort descBySnd with hsorted
    have hslice : pySlice sorted limit = sorted.take limit.toNat :=
      if_pos (le_of_lt hlim)
    have hlen : sorted.length = cat.length := by
      rw [hsorted, List.length_mergeSort, hsims, List.length_map]
    constructor
    · rw [hss, hslice]
      intro hnil
      have h0 := congrArg List.length hnil
      rw [List.length_map, List.length_take, hlen, List.length_nil] at h0
      have hc0 : 0 < cat.length := List.length_pos.mpr hcat
      omega
    · intro m hm
      rw [hss, hslice] at hm
      obtain ⟨x, hx, rfl⟩ := List.mem_map.mp hm
      have hx2 : x ∈ sims := List.mem_mergeSort.mp (List.mem_of_mem_take hx)
      obtain ⟨mc, hmc, hxe⟩ := List.mem_map.mp hx2
      cases hidx : movie_index cat mc <;> rw [hidx] at hxe <;>
        simp only at hxe <;> rw [← hxe] <;> exact hmc

/-- Witness for C3 at a concrete catalog and non-matching filters. -/
theorem empty_candidates_witness :
    get_recommendations [mv1, mv2] (fun _ => 0) fNoMatch .POPULARITY 5 = [] :=
  (empty_candidates [mv1, mv2] (fun _ => 0) fNoMatch 5 (by decide)).1

/-! ## Non-positive limits -/

/-- Python slice behavior for a non-positive bound: `l[:0]` is empty and
a negative bound drops the trailing `|n|` elements. -/
theorem pySlice_nonpos {α : Type} (l : List α) (n : Int) (hn : n ≤ 0)
    (N : Nat) (hN : l.length ≤ N) :
    (pySlice l n).length ≤ ((N : Int) + n).toNat ∧
    (n = 0 → pySlice l n = []) := by
  constructor
  · unfold pySlice
    split
    · have h0 : n = 0 := le_antisymm hn (by assumption)
      subst h0
      simp
    · rw [List.length_take]
      omega
  · intro h0
    subst h0
    unfold pySlice
    simp

/-- C8 (amended): `get_recommendations` performs no validation of the
limit — a call with limit ≤ 0 does not fail: limit = 0 returns the empty
list, and a negative limit acts as a Python slice end-point, returning
at most `max 0 (catalog length + limit)` items. -/
theorem limit_nonpositive_behavior (cat : List Movie) (sim : Nat → ℚ)
    (f : ParsedFilters) (variant : RecommendationStrategy) (limit : Int)
    (h : limit ≤ 0) :
    (get_recommendations cat sim f variant limit).length ≤
      ((cat.length : Int) + limit).toNat ∧
    (limit = 0 → get_recommendations cat sim f variant limit = []) := by
  have hsubLen : (filter_movies cat f).length ≤ cat.length :=
    (filter_movies_sublist cat f).length_le
  cases variant with
  | POPULARITY =>
    have hrec : get_recommendations cat sim f .POPULARITY limit =
        if (filter_movies cat f).isEmpty then []
        else popularity_strategy (filter_movies cat f) f limit := rfl
    rw [hrec]
    by_cases he : (filter_movies cat f).isEmpty = true
    · rw [if_pos he]
      exact ⟨by simp, fun _ => rfl⟩
    · rw [if_neg he]
      have hrec2 : popularity_strategy (filter_movies cat f) f limit =
          (pySlice (((filter_movies cat f).map fun m =>
            (m, pop_score f m)).mergeSort descBySnd) limit).map Prod.fst := rfl
      rw [hrec2]
      have hlen : ((((filter_movies cat f)).map fun m =>
          (m, pop_score f m)).mergeSort descBySnd).length ≤ cat.length := by
        rw [List.length_mergeSort, List.length_map]
        exact hsubLen
      obtain ⟨h1, h2⟩ := pySlice_nonpos _ limit h cat.length hlen
      refine ⟨by rw [List.length_map]; exact h1, fun h0 => ?_⟩
      rw [h2 h0]
      rfl
  | SIMILARITY =>
    have hrec : get_recommendations cat sim f .SIMILARITY limit =
        similarity_strategy cat sim
          (if (filter_movies cat f).isEmpty then cat else filter_movies cat f)
          f limit := rfl
    rw [hrec]
    set cand := if (filter_movies cat f).isEmpty then cat else filter_movies cat f
      with hcand
    have hcl : cand.length ≤ cat.length := by
      rw [hcand]
      split
      · exact le_refl _
      · exact hsubLen
    by_cases hce : cand.isEmpty = true
    · have hc0 : cand = [] := List.isEmpty_iff.mp hce
      have hrec2 : similarity_strategy cat sim cand f limit =
          pySlice ([] : List Movie) limit := by
        rw [hc0]
        rfl
      rw [hrec2]
      exact pySlice_nonpos ([] : List Movie) limit h cat.length (by simp)
    · have hc1 : cand.isEmpty = false := by
        rwa [Bool.not_eq_true] at hce
      have hrec2 : similarity_strategy cat sim cand f limit =
          (pySlice ((cand.map fun m =>
            match movie_index cat m with
            | some i => (m, sim i + sim_boost f m)
            | none => (m, 0)).mergeSort descBySnd) limit).map Prod.fst := by
        unfold similarity_strategy
        rw [hc1]
        rfl
      rw [hrec2]
      have hlen : ((cand.map fun m =>
          match movie_index cat m with
          | some i => (m, sim i + sim_boost f m)
          | none => (m, 0)).mergeSort descBySnd).length ≤ cat.length := by
        rw [List.length_mergeSort, List.length_map]
        exact hcl
      obtain ⟨h1, h2⟩ := pySlice_nonpos _ limit h cat.length hlen
      refine ⟨by rw [List.length_map]; exact h1, fun h0 => ?_⟩
      rw [h2 h0]
      rfl

/-- Witness for C8's amended theorem at limit 0. -/
theorem limit_nonpositive_behavior_witness :
    get_recommendations [mv1, mv2] (fun _ => 0) ({} : ParsedFilters)
      .POPULARITY 0 = [] :=
  (limit_nonpositive_behavior [mv1, mv2] (fun _ => 0) {} .POPULARITY 0
    (by decide)).2 rfl

unseal List.mergeSort List.merge in
/-- C8 (counterexample): a limit ≤ 0 is NOT rejected — the embedding is a
total function and the concrete calls below return ordinary values: an
empty result at limit 0 and a truncated (all-but-last) result at limit
−1, exactly what the claim says must not happen. -/
theorem limit_nonpositive_counterexample :
    get_recommendations [mv1, mv2] (fun _ => 0) ({} : ParsedFilters)
        .POPULARITY 0 = [] ∧
    get_recommendations [mv1, mv2] (fun _ => 0) ({} : ParsedFilters)
        .POPULARITY (-1) = [mv1] := by
  refine ⟨by decide, by decide⟩

/-- Witness for C7: with no filters set, the concrete catalog passes
through the filter unchanged. -/
theorem filter_movies_conjunction_witness :
    filter_movies [mv1, mv2] {} = [mv1, mv2] :=
  filter_movies_conjunction.2 [mv1, mv2]

/-- Witness for C10 at a concrete query. -/
theorem genre_tables_agree_witness :
    ((normalize_filters (parse_query q_short120)).genres).toFinset =
      ((parse_query q_short120).genres).toFinset :=
  genre_tables_agree.1 q_short120

end PCD
